import Mathlib

/-!
Verification development for the amplifier-skills-plugin sync scripts
(`scripts/sync_amplifier_core.py` and `scripts/sync_ddd.py`).

Text content is modelled as `List Char`. The Python string operations the
scripts use (`str.split(sep, 2)`, `str.replace`, `str.lstrip`,
`re.sub` with the concrete patterns appearing in the scripts) are embedded
as executable Lean functions, and the pipeline functions are translated
from the Python source.  Filesystem effects are modelled by returning the
list of (path, content) writes a run performs, together with the reported
paths and warning messages; reading the upstream clone is modelled by
passing the relevant file contents as `Option` values.
-/

/-- Text content: a Python `str`, restricted to its character sequence. -/
abbrev Str := List Char

/-- The six ASCII characters Python's `str.isspace`/`str.lstrip` treats as
whitespace (the scripts only process ASCII markdown). -/
def isPySpace (c : Char) : Bool :=
  c = ' ' || c = '\t' || c = '\n' || c = '\r' || c = '\x0b' || c = '\x0c'

/-- Python `str.lstrip()`: drop leading whitespace. -/
def lstrip (s : Str) : Str := s.dropWhile isPySpace

/-- Leftmost occurrence of `sep` in `s`: returns the text before the
occurrence and the text after it, or `none` when `sep` does not occur. -/
def splitFirst (sep : Str) : Str → Option (Str × Str)
  | [] => if sep.isPrefixOf [] then some ([], []) else none
  | c :: cs =>
    if sep.isPrefixOf (c :: cs) then some ([], (c :: cs).drop sep.length)
    else
      match splitFirst sep cs with
      | some (a, b) => some (c :: a, b)
      | none => none

/-- Python `s.split(sep, 2)`: split at the first two occurrences of `sep`,
yielding at most three parts (the last part keeps any later occurrences). -/
def pySplit2 (sep s : Str) : List Str :=
  match splitFirst sep s with
  | none => [s]
  | some (p0, r) =>
    match splitFirst sep r with
    | none => [p0, r]
    | some (p1, r2) => [p0, p1, r2]

/-- Fuel-driven worker for `pyReplace`.  Every step consumes at least one
character of the remaining text (the pattern is non-empty at every use), so
`fuel = s.length` always suffices and the `fuel = 0` case is unreachable
with a non-empty remainder. -/
def pyReplaceGo (pat repl : Str) : Nat → Str → Str
  | 0, s => s
  | fuel + 1, s =>
    if pat.isPrefixOf s && !pat.isEmpty then
      repl ++ pyReplaceGo pat repl fuel (s.drop pat.length)
    else
      match s with
      | [] => []
      | c :: cs => c :: pyReplaceGo pat repl fuel cs

/-- Python `s.replace(pat, repl)` (also `re.sub` for a literal pattern):
replace every non-overlapping leftmost occurrence. -/
def pyReplace (pat repl s : Str) : Str := pyReplaceGo pat repl s.length s

/-- Fuel-driven worker for `pySub`.  The matcher returns the replacement
text and the number of characters the match consumed (always at least one
for the matchers used here), so `fuel = s.length` suffices. -/
def pySubGo (m : Str → Option (Str × Nat)) : Nat → Str → Str
  | 0, s => s
  | fuel + 1, s =>
    match m s with
    | some (r, k) => r ++ pySubGo m fuel (s.drop k)
    | none =>
      match s with
      | [] => []
      | c :: cs => c :: pySubGo m fuel cs

/-- Python `re.sub` for a matcher `m`: scan left to right, replacing each
leftmost match and continuing after it. -/
def pySub (m : Str → Option (Str × Nat)) (s : Str) : Str := pySubGo m s.length s

/-- Matcher for the regex `\[([^\]]+)\]\(target\)` (with `target` a literal
such as `DESIGN_PHILOSOPHY\.md`): returns the capture group `\1` when `s`
starts with `[` ++ g1 ++ `](` ++ target ++ `)` and g1 is a non-empty run of
non-`]` characters. -/
def matchLinkLit (target : Str) (s : Str) : Option Str :=
  match s with
  | '[' :: rest =>
    let g1 := rest.takeWhile (fun c => c != ']')
    if g1.isEmpty then none
    else
      match rest.drop g1.length with
      | ']' :: '(' :: r3 =>
        if (target ++ [ ')' ]).isPrefixOf r3 then some g1 else none
      | _ => none
  | _ => none

/-- Matcher for the regex `\[([^\]]+)\]\(pre([^)]+)\)` (with `pre` a literal
such as `contracts/` or `\.\./`): returns the capture groups `(\1, \2)`. -/
def matchLinkPre (pre : Str) (s : Str) : Option (Str × Str) :=
  match s with
  | '[' :: rest =>
    let g1 := rest.takeWhile (fun c => c != ']')
    if g1.isEmpty then none
    else
      match rest.drop g1.length with
      | ']' :: '(' :: r3 =>
        if pre.isPrefixOf r3 then
          let r4 := r3.drop pre.length
          let g2 := r4.takeWhile (fun c => c != ')')
          if g2.isEmpty then none
          else
            match r4.drop g2.length with
            | ')' :: _ => some (g1, g2)
            | _ => none
        else none
      | _ => none
  | _ => none

/-- `re.sub(r"\[([^\]]+)\]\(target\)", r"[\1](newTarget)", s)` for a literal
`target`: both capture use and consumed length follow the match shape
`[g1](target)`, which is `g1.length + target.length + 4` characters. -/
def linkLitSub (target newTarget : Str) : Str → Str :=
  pySub fun s =>
    (matchLinkLit target s).map fun g1 =>
      ('[' :: g1 ++ ']' :: '(' :: newTarget ++ [ ')' ],
       g1.length + target.length + 4)

/-- `re.sub(r"\[([^\]]+)\]\(pre([^)]+)\)", …, s)`: the consumed match
`[g1](pre g2)` is `g1.length + pre.length + g2.length + 4` characters and the
replacement is built from the captures by `build`. -/
def linkPreSub (pre : Str) (build : Str → Str → Str) : Str → Str :=
  pySub fun s =>
    (matchLinkPre pre s).map fun g =>
      (build g.1 g.2, g.1.length + pre.length + g.2.length + 4)

/-! ### sync_amplifier_core.py: reference rules and credit/frontmatter text -/

/-- Rule 1 of `REFERENCE_PATTERNS` in sync_amplifier_core.py:
`(r"\[([^\]]+)\]\(DESIGN_PHILOSOPHY\.md\)", r"[\1](@skills/amplifier-philosophy/SKILL.md)")`. -/
def coreRule1 : Str → Str :=
  linkLitSub ("DESIGN_PHILOSOPHY.md").toList
    ("@skills/amplifier-philosophy/SKILL.md").toList

/-- Rule 2: `(r"\[([^\]]+)\]\(contracts/([^)]+)\)", r"[\1](@skills/module-development/SKILL.md)")`. -/
def coreRule2 : Str → Str :=
  linkPreSub ("contracts/").toList
    (fun g1 _ => '[' :: g1 ++ ("](@skills/module-development/SKILL.md)").toList)

/-- Rule 3: `(r"\[([^\]]+)\]\(MODULE_SOURCE_PROTOCOL\.md\)", r"[\1](@skills/module-development/SKILL.md)")`. -/
def coreRule3 : Str → Str :=
  linkLitSub ("MODULE_SOURCE_PROTOCOL.md").toList
    ("@skills/module-development/SKILL.md").toList

/-- Rule 4: `(r"\[([^\]]+)\]\(\.\./([^)]+)\)", r"[\1](https://github.com/microsoft/amplifier-core/blob/main/\2)")`. -/
def coreRule4 : Str → Str :=
  linkPreSub ("../").toList
    (fun g1 g2 =>
      '[' :: g1 ++ ("](https://github.com/microsoft/amplifier-core/blob/main/").toList
        ++ g2 ++ [ ')' ])

/-- `REFERENCE_PATTERNS` of sync_amplifier_core.py, each pair represented by
its substitution function. -/
def REFERENCE_PATTERNS_core : List (Str → Str) :=
  [coreRule1, coreRule2, coreRule3, coreRule4]

/-- `transform_references` of sync_amplifier_core.py: the `for` loop applies
each rule of `REFERENCE_PATTERNS` to the result of the previous rule. -/
def transform_references_core (content : Str) : Str :=
  let r1 := coreRule1 content
  let r2 := coreRule2 r1
  let r3 := coreRule3 r2
  coreRule4 r3

/-- `CREDIT_COMMENT` of sync_amplifier_core.py. -/
def CREDIT_COMMENT_core : Str :=
  ("<!--\n  Source: https://github.com/microsoft/amplifier-core\n  License: MIT\n  Auto-synced for Claude Code Plugin format\n-->\n\n").toList

/-- `inject_credit` of sync_amplifier_core.py: unconditionally prepend the
credit comment. -/
def inject_credit_core (content : Str) : Str := CREDIT_COMMENT_core ++ content

/-- `PHILOSOPHY_FRONTMATTER` of sync_amplifier_core.py. -/
def PHILOSOPHY_FRONTMATTER : Str :=
  ("---\nname: amplifier-philosophy\ndescription: Amplifier design philosophy using Linux kernel metaphor. Covers mechanism vs policy, module architecture, event-driven design, and kernel principles. Use when designing new modules or making architectural decisions.\nversion: 1.0.0\nlicense: MIT\nmetadata:\n  category: architecture\n  complexity: medium\n  original_source: https://github.com/microsoft/amplifier-core/blob/main/docs/DESIGN_PHILOSOPHY.md\n---\n\n").toList

/-- `MODULE_DEV_FRONTMATTER` of sync_amplifier_core.py. -/
def MODULE_DEV_FRONTMATTER : Str :=
  ("---\nname: module-development\ndescription: Guide for creating new Amplifier modules including protocol implementation, entry points, mount functions, and testing patterns. Use when creating new modules or understanding module architecture.\nversion: 1.0.0\nlicense: MIT\nmetadata:\n  category: development\n  complexity: medium\n  original_source: https://github.com/microsoft/amplifier-core/tree/main/docs/contracts\n---\n\n").toList

/-- `CONTRACT_FILES` of sync_amplifier_core.py: the fixed merge order. -/
def CONTRACT_FILES : List Str :=
  [("TOOL_CONTRACT.md").toList,
   ("PROVIDER_CONTRACT.md").toList,
   ("HOOK_CONTRACT.md").toList,
   ("ORCHESTRATOR_CONTRACT.md").toList,
   ("CONTEXT_CONTRACT.md").toList]

/-! ### sync_ddd.py: reference rules, credit, frontmatter helpers -/

/-- Rule 1 of `REFERENCE_PATTERNS` in sync_ddd.py (a literal pattern). -/
def dddPat1 : Str × Str :=
  (("@ddd:context/").toList, ("@skills/ddd-guide/references/").toList)

/-- Rule 2: `(r"@ddd:", "@skills/ddd-guide/references/")`. -/
def dddPat2 : Str × Str :=
  (("@ddd:").toList, ("@skills/ddd-guide/references/").toList)

/-- Rule 3: `(r"@foundation:IMPLEMENTATION_PHILOSOPHY\.md", "@skills/amplifier-philosophy/SKILL.md")`. -/
def dddPat3 : Str × Str :=
  (("@foundation:IMPLEMENTATION_PHILOSOPHY.md").toList,
   ("@skills/amplifier-philosophy/SKILL.md").toList)

/-- Rule 4: `(r"@foundation:MODULAR_DESIGN_PHILOSOPHY\.md", "@skills/amplifier-philosophy/SKILL.md")`. -/
def dddPat4 : Str × Str :=
  (("@foundation:MODULAR_DESIGN_PHILOSOPHY.md").toList,
   ("@skills/amplifier-philosophy/SKILL.md").toList)

/-- Rule 5: `(r"@foundation:", "@skills/amplifier-philosophy/")`. -/
def dddPat5 : Str × Str :=
  (("@foundation:").toList, ("@skills/amplifier-philosophy/").toList)

/-- `REFERENCE_PATTERNS` of sync_ddd.py (all five patterns are literal
strings once the regex escaping of `.` is unescaped). -/
def REFERENCE_PATTERNS_ddd : List (Str × Str) :=
  [dddPat1, dddPat2, dddPat3, dddPat4, dddPat5]

/-- `transform_references` of sync_ddd.py: the `for` loop applies each
rule's substitution to the result of the previous rule. -/
def transform_references_ddd (content : Str) : Str :=
  let r1 := pyReplace dddPat1.1 dddPat1.2 content
  let r2 := pyReplace dddPat2.1 dddPat2.2 r1
  let r3 := pyReplace dddPat3.1 dddPat3.2 r2
  let r4 := pyReplace dddPat4.1 dddPat4.2 r3
  pyReplace dddPat5.1 dddPat5.2 r4

/-- `CREDIT_COMMENT` of sync_ddd.py. -/
def CREDIT_COMMENT_ddd : Str :=
  ("<!--\n  Source: https://github.com/robotdad/amplifier-collection-ddd\n  License: MIT\n  Auto-converted for Claude Code Plugin format\n-->\n\n").toList

/-- The three-dash delimiter tested by `content.startswith("---")` and split
on by `content.split("---", 2)`. -/
def dashes : Str := ("---").toList

/-- `inject_credit` of sync_ddd.py: when the content starts with `---` and
`split("---", 2)` yields three parts, rebuild as
`f"---{parts[1]}---\n\n{CREDIT_COMMENT}{parts[2].lstrip()}"`; otherwise
prepend the credit comment. -/
def inject_credit_ddd (content : Str) : Str :=
  if dashes.isPrefixOf content then
    match pySplit2 dashes content with
    | [_, p1, p2] =>
      dashes ++ p1 ++ dashes ++ '\n' :: '\n' :: (CREDIT_COMMENT_ddd ++ lstrip p2)
    | _ => CREDIT_COMMENT_ddd ++ content
  else CREDIT_COMMENT_ddd ++ content

/-- Fuel-driven worker modelling
`re.sub(r"^name:\s*.*$", repl, s, flags=re.MULTILINE)`.
`atStart` records whether the scan position is at the start of the string or
right after a newline (where `^` matches).  A match consumes `name:`, then
the maximal whitespace run (`\s*`, greedy, which may span newlines), then the
rest of that line (`.*`), after which `$` always holds; the scan resumes
after the match.  Every step consumes at least one character, so
`fuel = s.length` suffices. -/
def subNameGo (repl : Str) : Nat → Bool → Str → Str
  | 0, _, s => s
  | fuel + 1, atStart, s =>
    if atStart && ("name:").toList.isPrefixOf s then
      let r1 := s.drop 5
      let r2 := r1.dropWhile isPySpace
      let r3 := r2.dropWhile (fun c => c != '\n')
      repl ++ subNameGo repl fuel false r3
    else
      match s with
      | [] => []
      | c :: cs => c :: subNameGo repl fuel (c == '\n') cs

/-- `re.sub(r"^name:\s*.*$", repl, s, flags=re.MULTILINE)` with a literal
replacement `repl`. -/
def pySubName (repl s : Str) : Str := subNameGo repl s.length true s

/-- `update_frontmatter_name` of sync_ddd.py. -/
def update_frontmatter_name (content : Str) (new_name : Str) : Str :=
  if dashes.isPrefixOf content then
    match pySplit2 dashes content with
    | [_, p1, p2] =>
      dashes ++ pySubName (("name: ").toList ++ new_name) p1 ++ dashes ++ p2
    | _ => content
  else content

/-! ### Effect model: sources, destinations, and per-step run records -/

/-- Result of one assembler invocation: `ok` with the returned value, or
`fail` with the message of the raised `FileNotFoundError`. -/
inductive SyncResult (α : Type) where
  | ok : α → SyncResult α
  | fail : Str → SyncResult α
deriving DecidableEq

/-- `true` exactly when the invocation raised. -/
def SyncResult.isFailB {α : Type} : SyncResult α → Bool
  | .ok _ => false
  | .fail _ => true

/-- One assembler invocation's observable effects: the destination writes it
performs, the destination paths it reports (printed in both dry-run and
apply mode), the warnings it logs, and its result. -/
structure StepRec (α : Type) where
  writes : List (Str × Str)
  reported : List Str
  warnings : List Str
  result : SyncResult α
deriving DecidableEq

/-- Effects of the per-entry loops of sync_ddd.py (which cannot raise):
writes, reported paths, warnings, and the accumulated returned path list. -/
structure LoopOut where
  writes : List (Str × Str)
  reported : List Str
  warnings : List Str
  converted : List Str
deriving DecidableEq

/-- The `docs/contracts` directory of the amplifier-core clone: its
`README.md` (if present) and its other files by name. -/
structure ContractsDir where
  readme : Option Str
  files : Str → Option Str

/-- The files sync_amplifier_core.py reads from the clone.  `none` models a
missing file or directory. -/
structure CoreSrc where
  design_philosophy : Option Str
  contracts : Option ContractsDir
  module_source_protocol : Option Str

/-- The files sync_ddd.py reads from the clone: the `agents/` directory
(files by name) and the recursive `context/**/*.md` listing as
(relative path, content) pairs, in `rglob` order. -/
structure DddSrc where
  agents : Option (Str → Option Str)
  context : Option (List (Str × Str))

/-- Destination path of the amplifier-philosophy skill, relative to
`PLUGIN_ROOT`. -/
def philosophyPath : Str := ("skills/amplifier-philosophy/SKILL.md").toList

/-- Destination path of the module-development skill. -/
def moduleDevPath : Str := ("skills/module-development/SKILL.md").toList

/-- Destination path of the generated DDD guide `SKILL.md`. -/
def skillMdPath : Str := ("skills/ddd-guide/SKILL.md").toList

/-- Destination path of a converted command file (`commands/<name>`). -/
def cmdPathOf (command_file : Str) : Str := ("commands/").toList ++ command_file

/-- Destination path of a mirrored context file
(`skills/ddd-guide/references/<relative path>`). -/
def refPathOf (relative_path : Str) : Str :=
  ("skills/ddd-guide/references/").toList ++ relative_path

/-- Message of the `FileNotFoundError` raised by `sync_philosophy`. -/
def designMissingMsg : Str :=
  ("Source file not found: docs/DESIGN_PHILOSOPHY.md").toList

/-- Message raised by `sync_module_development` for a missing contracts
directory. -/
def contractsMissingMsg : Str :=
  ("Contracts directory not found: docs/contracts").toList

/-- Message raised by `sync_module_development` for a missing
`contracts/README.md`. -/
def readmeMissingMsg : Str :=
  ("README not found: docs/contracts/README.md").toList

/-- Message raised by `convert_agents_to_commands` for a missing `agents/`
directory. -/
def agentsMissingMsg : Str := ("agents directory not found: agents").toList

/-- Message raised by `copy_context_to_skills` for a missing `context/`
directory. -/
def contextMissingMsg : Str := ("context directory not found: context").toList

/-- Warning logged by `sync_module_development` for an absent contract file. -/
def contractWarn (name : Str) : Str :=
  ("WARNING: Contract file not found: ").toList ++ name

/-- Warning logged by `sync_module_development` for an absent
`MODULE_SOURCE_PROTOCOL.md`. -/
def mspWarn : Str := ("WARNING: MODULE_SOURCE_PROTOCOL.md not found").toList

/-- Warning logged by `convert_agents_to_commands` for an absent agent file. -/
def convertWarn (agent_file : Str) : Str :=
  ("WARNING: ").toList ++ agent_file ++ (" not found, skipping").toList

/-! ### sync_amplifier_core.py: assemblers -/

/-- `sync_philosophy` of sync_amplifier_core.py: raise if
`docs/DESIGN_PHILOSOPHY.md` is absent; otherwise transform references,
prepend `PHILOSOPHY_FRONTMATTER` plus the injected credit, and write (or,
under dry-run, only report) the destination. -/
def sync_philosophy (src : CoreSrc) (dry_run : Bool) : StepRec Str :=
  match src.design_philosophy with
  | none => ⟨[], [], [], .fail designMissingMsg⟩
  | some content =>
    let assembled :=
      PHILOSOPHY_FRONTMATTER ++ inject_credit_core (transform_references_core content)
    if dry_run then ⟨[], [philosophyPath], [], .ok philosophyPath⟩
    else ⟨[(philosophyPath, assembled)], [philosophyPath], [], .ok philosophyPath⟩

/-- The `"\n---\n\n"` prefix each merged contract section carries in
`sync_module_development` (`sections.append(f"\n---\n\n{contract_content}")`). -/
def sepSec : Str := ("\n---\n\n").toList

/-- The appendix section built from `MODULE_SOURCE_PROTOCOL.md`. -/
def mspSection (m : Str) : Str :=
  ("\n---\n\n# Appendix: Module Source Protocol\n\n").toList
    ++ transform_references_core m

/-- The separator `"\n".join(sections)` places between sections. -/
def nlStr : Str := [ '\n' ]

/-- One iteration of the contract-file loop of `sync_module_development`:
append the transformed section when the file exists, else log a warning. -/
def contractStep (files : Str → Option Str) (acc : List Str × List Str)
    (name : Str) : List Str × List Str :=
  match files name with
  | some ct => (acc.1 ++ [sepSec ++ transform_references_core ct], acc.2)
  | none => (acc.1, acc.2 ++ [contractWarn name])

/-- `sync_module_development` of sync_amplifier_core.py: raise if the
contracts directory or its `README.md` is absent; otherwise merge the
transformed README, the present contract files in `CONTRACT_FILES` order,
and the optional `MODULE_SOURCE_PROTOCOL.md` appendix, join with `"\n"`,
wrap in `MODULE_DEV_FRONTMATTER` plus the injected credit, and write (or
report) the destination. -/
def sync_module_development (src : CoreSrc) (dry_run : Bool) : StepRec Str :=
  match src.contracts with
  | none => ⟨[], [], [], .fail contractsMissingMsg⟩
  | some cd =>
    match cd.readme with
    | none => ⟨[], [], [], .fail readmeMissingMsg⟩
    | some readme =>
      let base :=
        CONTRACT_FILES.foldl (contractStep cd.files)
          ([transform_references_core readme], [])
      let sw :=
        match src.module_source_protocol with
        | some m => (base.1 ++ [mspSection m], base.2)
        | none => (base.1, base.2 ++ [mspWarn])
      let assembled :=
        MODULE_DEV_FRONTMATTER ++ inject_credit_core (List.intercalate nlStr sw.1)
      if dry_run then ⟨[], [moduleDevPath], sw.2, .ok moduleDevPath⟩
      else ⟨[(moduleDevPath, assembled)], [moduleDevPath], sw.2, .ok moduleDevPath⟩

/-- `main` of sync_amplifier_core.py, after the clone: run
`sync_philosophy` then `sync_module_development`; a raised error aborts the
run (the later step is not attempted) and the process exits non-zero. -/
def main_core (src : CoreSrc) (dry_run : Bool) : StepRec (List Str) :=
  let s1 := sync_philosophy src dry_run
  match s1.result with
  | .fail e => ⟨s1.writes, s1.reported, s1.warnings, .fail e⟩
  | .ok p1 =>
    let s2 := sync_module_development src dry_run
    match s2.result with
    | .fail e =>
      ⟨s1.writes ++ s2.writes, s1.reported ++ s2.reported,
       s1.warnings ++ s2.warnings, .fail e⟩
    | .ok p2 =>
      ⟨s1.writes ++ s2.writes, s1.reported ++ s2.reported,
       s1.warnings ++ s2.warnings, .ok [p1, p2]⟩

/-! ### sync_ddd.py: assemblers -/

/-- `AGENT_TO_COMMAND` of sync_ddd.py, in insertion order. -/
def AGENT_TO_COMMAND : List (Str × Str) :=
  [(("planning-architect.md").toList, ("ddd-1-plan.md").toList),
   (("documentation-retroner.md").toList, ("ddd-2-docs.md").toList),
   (("code-planner.md").toList, ("ddd-3-code-plan.md").toList),
   (("implementation-verifier.md").toList, ("ddd-4-code.md").toList),
   (("finalization-specialist.md").toList, ("ddd-5-finish.md").toList)]

/-- The content written for one converted agent file: transform references,
inject the credit, then set the frontmatter `name:` field to the command
file name with `.md` removed (`command_file.replace(".md", "")`). -/
def expectedCommandContent (content command_file : Str) : Str :=
  update_frontmatter_name
    (inject_credit_ddd (transform_references_ddd content))
    (pyReplace ((".md").toList) [] command_file)

/-- The `for agent_file, command_file in AGENT_TO_COMMAND.items()` loop of
`convert_agents_to_commands`: a missing source logs a warning and is
skipped; a present one is converted and written (or reported under
dry-run), and its target path is appended to the returned list. -/
def convertLoop (ag : Str → Option Str) (dry_run : Bool) :
    List (Str × Str) → LoopOut
  | [] => ⟨[], [], [], []⟩
  | (agent_file, command_file) :: rest =>
    let r := convertLoop ag dry_run rest
    match ag agent_file with
    | none => ⟨r.writes, r.reported, convertWarn agent_file :: r.warnings, r.converted⟩
    | some content =>
      let path := cmdPathOf command_file
      let assembled := expectedCommandContent content command_file
      if dry_run then ⟨r.writes, path :: r.reported, r.warnings, path :: r.converted⟩
      else ⟨(path, assembled) :: r.writes, path :: r.reported, r.warnings,
            path :: r.converted⟩

/-- `convert_agents_to_commands` of sync_ddd.py: raise if the `agents/`
directory is absent, else run the mapping loop. -/
def convert_agents_to_commands (src : DddSrc) (dry_run : Bool) :
    StepRec (List Str) :=
  match src.agents with
  | none => ⟨[], [], [], .fail agentsMissingMsg⟩
  | some ag =>
    let r := convertLoop ag dry_run AGENT_TO_COMMAND
    ⟨r.writes, r.reported, r.warnings, .ok r.converted⟩

/-- The `for md_file in context_dir.rglob("*.md")` loop of
`copy_context_to_skills`: each file is transformed, credit-injected and
written at the same relative path under the references root. -/
def copyLoop (dry_run : Bool) : List (Str × Str) → LoopOut
  | [] => ⟨[], [], [], []⟩
  | (relative_path, content) :: rest =>
    let r := copyLoop dry_run rest
    let path := refPathOf relative_path
    let assembled := inject_credit_ddd (transform_references_ddd content)
    if dry_run then ⟨r.writes, path :: r.reported, r.warnings, path :: r.converted⟩
    else ⟨(path, assembled) :: r.writes, path :: r.reported, r.warnings,
          path :: r.converted⟩

/-- `copy_context_to_skills` of sync_ddd.py: raise if the `context/`
directory is absent, else mirror every markdown file found beneath it. -/
def copy_context_to_skills (src : DddSrc) (dry_run : Bool) :
    StepRec (List Str) :=
  match src.context with
  | none => ⟨[], [], [], .fail contextMissingMsg⟩
  | some entries =>
    let r := copyLoop dry_run entries
    ⟨r.writes, r.reported, r.warnings, .ok r.converted⟩

/-- `SKILL_MD_TEMPLATE` of sync_ddd.py. -/
def SKILL_MD_TEMPLATE : Str :=
  ("---\nname: ddd-guide\ndescription: Document-Driven Development workflow for existing codebases. Provides systematic planning, documentation-first design, and implementation verification.\nversion: 1.0.0\nlicense: MIT\nmetadata:\n  category: workflow\n  complexity: high\n  original_source: https://github.com/robotdad/amplifier-collection-ddd\n---\n\n# Document-Driven Development (DDD) Guide\n\n## Core Principle\n\n**Documentation IS the specification. Code implements what documentation describes.**\n\nDDD inverts traditional development: update documentation first, then implement code to match.\n\n## Why DDD?\n\n- **Catches design flaws early** - Before expensive code changes\n- **Prevents documentation drift** - Docs and code stay synchronized\n- **Enables human review** - Humans approve specs, not code\n- **AI-friendly** - Clear specifications reduce hallucination\n\n## Six-Phase Workflow\n\n| Phase | Name | Command | Deliverable |\n|-------|------|---------|-------------|\n| 0-1 | Planning | /ddd 1-plan | plan.md |\n| 2 | Documentation | /ddd 2-docs | Updated docs |\n| 3 | Code Planning | /ddd 3-code-plan | code_plan.md |\n| 4 | Implementation | /ddd 4-code | Working code |\n| 5-6 | Finalization | /ddd 5-finish | Tested, committed |\n\n## Core Techniques\n\n### Retcon Writing\n\nDocument features as if they already exist. No future tense.\n\n- Bad: \"This feature will add...\"\n- Good: \"This feature provides...\"\n\n### File Crawling\n\nProcess files one at a time to avoid context overflow:\n\n1. Generate index with `[ ]` checkboxes\n2. Process one file per iteration\n3. Mark `[x]` when complete\n\n### Context Poisoning Prevention\n\nEliminate contradictions:\n\n- One authoritative location per concept\n- Delete duplicates, don\x27t update\n- Resolve conflicts before proceeding\n\n## When to Use DDD\n\n**Use DDD for:**\n- Multi-file changes\n- New features in existing codebases\n- Complex integrations\n\n**Skip DDD for:**\n- Typo fixes\n- Single-file changes\n- Emergency hotfixes\n\n## References\n\nSee `@skills/ddd-guide/references/` for detailed documentation:\n\n- `core-concepts/` - Techniques and methodologies\n- `phases/` - Step-by-step phase guides\n- `philosophy/` - Underlying principles\n\n## Remember\n\n**Documentation first.** If it\x27s not documented, it doesn\x27t exist.\n\n**Retcon, don\x27t predict.** Write as if the feature already exists.\n\n**One source of truth.** Delete duplicates, don\x27t update them.\n").toList

/-- `generate_skill_md` of sync_ddd.py: emit the fixed template at the
fixed destination (no source read, cannot fail). -/
def generate_skill_md (dry_run : Bool) : StepRec Str :=
  if dry_run then ⟨[], [skillMdPath], [], .ok skillMdPath⟩
  else ⟨[(skillMdPath, SKILL_MD_TEMPLATE)], [skillMdPath], [], .ok skillMdPath⟩

/-- The dry-run contract of one assembler (viewed as a function of the
dry-run flag): a dry run performs no write, while reporting exactly the
paths an apply run would write, reporting and returning the same values,
and logging the same warnings. -/
def dryRunAgrees {α : Type} (f : Bool → StepRec α) : Prop :=
  (f true).writes = []
  ∧ (f true).reported = ((f false).writes).map Prod.fst
  ∧ (f true).reported = (f false).reported
  ∧ (f true).warnings = (f false).warnings
  ∧ (f true).result = (f false).result

/-- The warning list contributed by the `MODULE_SOURCE_PROTOCOL.md` step of
`sync_module_development`: one warning when the file is absent. -/
def mspWarnPart : Option Str → List Str
  | some _ => []
  | none => [mspWarn]

/-- The section list contributed by the `MODULE_SOURCE_PROTOCOL.md` step of
`sync_module_development`: one appendix section when the file is present. -/
def mspSecPart : Option Str → List Str
  | some m => [mspSection m]
  | none => []

/-- A concrete contracts directory (README present, only
`TOOL_CONTRACT.md` present among the contract files) used to instantiate
the theorems about `sync_module_development`. -/
def witnessContractsDir : ContractsDir :=
  ⟨some ("# Overview").toList,
   fun n => if n = ("TOOL_CONTRACT.md").toList
            then some ("tool contract docs").toList else none⟩

/-- A concrete amplifier-core clone with `MODULE_SOURCE_PROTOCOL.md`
absent. -/
def witnessCoreSrc : CoreSrc :=
  ⟨some ("philosophy doc").toList, some witnessContractsDir, none⟩

/-- A concrete `agents/` directory where only `planning-architect.md`
exists. -/
def witnessAgents : Str → Option Str :=
  fun n => if n = ("planning-architect.md").toList
           then some ("---\nname: planning-architect\n---\nAgent body").toList
           else none

/-- A concrete DDD clone with one agent file and one context file. -/
def witnessDddSrc : DddSrc :=
  ⟨some witnessAgents,
   some [(("phases/plan.md").toList, ("plan @ddd:context/x.md").toList)]⟩

/-- Number of non-overlapping leftmost occurrences of `sep` in `s` (used to
state how many further `---` delimiters a content string contains).  Each
found occurrence consumes at least one character, so `fuel = s.length`
suffices. -/
def countOccGo (sep : Str) : Nat → Str → Nat
  | 0, _ => 0
  | fuel + 1, s =>
    match splitFirst sep s with
    | none => 0
    | some (_, rest) => 1 + countOccGo sep fuel rest

/-- Number of non-overlapping occurrences of `sep` in `s`. -/
def countOcc (sep s : Str) : Nat := countOccGo sep s.length s

/-! ### Helper lemmas -/

theorem isPrefixOf_dashes_append (t : Str) : dashes.isPrefixOf (dashes ++ t) = true := by
  simp [dashes, List.isPrefixOf]

theorem splitFirst_dashes_self (t : Str) : splitFirst dashes (dashes ++ t) = some ([], t) := by
  simp [dashes, splitFirst, List.isPrefixOf]

theorem pySplit2_dashes_fm (fm b : Str)
    (h : splitFirst dashes (fm ++ dashes ++ b) = some (fm, b)) :
    pySplit2 dashes (dashes ++ (fm ++ dashes ++ b)) = [[], fm, b] := by
  rw [pySplit2, splitFirst_dashes_self]
  rw [List.append_assoc] at h
  simp [h]

theorem inject_ddd_fm (fm b : Str)
    (h : splitFirst dashes (fm ++ dashes ++ b) = some (fm, b)) :
    inject_credit_ddd (dashes ++ fm ++ dashes ++ b)
      = dashes ++ fm ++ dashes ++ '\n' :: '\n' :: (CREDIT_COMMENT_ddd ++ lstrip b) := by
  have hassoc : dashes ++ fm ++ dashes ++ b = dashes ++ (fm ++ dashes ++ b) := by
    simp [List.append_assoc]
  rw [hassoc, inject_credit_ddd, isPrefixOf_dashes_append]
  simp only [if_true]
  rw [pySplit2_dashes_fm fm b h]

theorem inject_ddd_plain (c : Str) (h : dashes.isPrefixOf c = false) :
    inject_credit_ddd c = CREDIT_COMMENT_ddd ++ c := by
  rw [inject_credit_ddd, h]
  simp

theorem inject_ddd_no_block (c : Str)
    (h : dashes.isPrefixOf c = false ∨ splitFirst dashes (c.drop 3) = none) :
    inject_credit_ddd c = CREDIT_COMMENT_ddd ++ c := by
  rcases h with h | h
  · exact inject_ddd_plain c h
  · cases hpc : dashes.isPrefixOf c with
    | false => exact inject_ddd_plain c hpc
    | true =>
      obtain ⟨t, ht⟩ := List.isPrefixOf_iff_prefix.mp hpc
      subst ht
      have hdrop : (dashes ++ t).drop 3 = t := by simp [dashes]
      rw [hdrop] at h
      rw [inject_credit_ddd, isPrefixOf_dashes_append]
      simp only [if_true]
      rw [pySplit2, splitFirst_dashes_self]
      simp [h]

theorem convertLoop_eq (ag : Str → Option Str) (dry : Bool) (L : List (Str × Str)) :
    convertLoop ag dry L =
      ⟨if dry then []
       else L.filterMap fun e =>
         (ag e.1).map fun ct => (cmdPathOf e.2, expectedCommandContent ct e.2),
       L.filterMap fun e => (ag e.1).map fun _ => cmdPathOf e.2,
       L.filterMap fun e =>
         match ag e.1 with
         | none => some (convertWarn e.1)
         | some _ => none,
       L.filterMap fun e => (ag e.1).map fun _ => cmdPathOf e.2⟩ := by
  induction L with
  | nil => cases dry <;> rfl
  | cons e rest ih =>
    obtain ⟨a, cmd⟩ := e
    cases he : ag a <;> cases dry <;>
      simp [convertLoop, he, ih, List.filterMap_cons]

theorem copyLoop_eq (dry : Bool) (L : List (Str × Str)) :
    copyLoop dry L =
      ⟨if dry then []
       else L.map fun e =>
         (refPathOf e.1, inject_credit_ddd (transform_references_ddd e.2)),
       L.map fun e => refPathOf e.1,
       [],
       L.map fun e => refPathOf e.1⟩ := by
  induction L with
  | nil => cases dry <;> rfl
  | cons e rest ih =>
    obtain ⟨rel, ct⟩ := e
    cases dry <;> simp [copyLoop, ih]

theorem contractFold_eq (files : Str → Option Str) (L : List Str) :
    ∀ secs warns : List Str,
      L.foldl (contractStep files) (secs, warns) =
        (secs ++ L.filterMap fun n =>
           (files n).map fun ct => sepSec ++ transform_references_core ct,
         warns ++ (L.filter fun n => (files n).isNone).map contractWarn) := by
  induction L with
  | nil => intro secs warns; simp
  | cons n rest ih =>
    intro secs warns
    cases h : files n <;>
      simp [contractStep, h, ih, List.filterMap_cons, List.filter_cons]

theorem count_filterMap_unique {α β : Type} [BEq β] [LawfulBEq β]
    (F : α → Option β) (G : α → β)
    (hFG : ∀ x y, F x = some y → y = G x)
    (L : List α) (x : α) (hx : x ∈ L) (hnd : (L.map G).Nodup) :
    (L.filterMap F).count (G x) = if (F x).isSome then 1 else 0 := by
  induction L with
  | nil => cases hx
  | cons y ys ih =>
    rw [List.map_cons, List.nodup_cons] at hnd
    obtain ⟨hny, hnd'⟩ := hnd
    rcases List.mem_cons.mp hx with rfl | hx'
    · have hrest : (ys.filterMap F).count (G x) = 0 := by
        apply List.count_eq_zero.mpr
        intro hmem
        obtain ⟨w, hw, hFw⟩ := List.mem_filterMap.mp hmem
        have : G x = G w := hFG w (G x) hFw
        exact hny (this ▸ List.mem_map_of_mem G hw)
      cases hFy : F x with
      | none => simp [List.filterMap_cons, hFy, hrest]
      | some bb =>
        have hb : bb = G x := hFG x bb hFy
        subst hb
        simp [List.filterMap_cons, hFy, List.count_cons, hrest]
    · have hGne : G y ≠ G x := by
        intro hEq
        exact hny (hEq ▸ List.mem_map_of_mem G hx')
      have hih := ih hx' hnd'
      cases hFy : F y with
      | none => simpa [List.filterMap_cons, hFy] using hih
      | some bb =>
        have hb : bb = G y := hFG y bb hFy
        subst hb
        simp [List.filterMap_cons, hFy, List.count_cons, hGne, hih]

/-! ### Claim theorems -/

/-- Claim C1, counterexample: for content that begins with a complete
three-dash frontmatter block, the amplifier-core `inject_credit` does not
place the banner after the block — the output does not even start with
`---`, so the positional rule fails for the amplifier-core pipeline. -/
theorem c1_counterexample :
    dashes.isPrefixOf (("---\nname: a\n---\nbody").toList) = true
    ∧ (pySplit2 dashes (("---\nname: a\n---\nbody").toList)).length = 3
    ∧ dashes.isPrefixOf (inject_credit_core (("---\nname: a\n---\nbody").toList)) = false := by
  decide

/-- Claim C1, amended: the amplifier-core `inject_credit` unconditionally
prepends the banner to the content (its callers obtain the positional
layout by prepending the frontmatter template after injection), while the
DDD `inject_credit` satisfies the positional rule: with a complete leading
frontmatter block the banner sits between the closing delimiter and the
(lstripped) body, and otherwise — content not starting with `---`, or
starting with `---` but containing no closing `---` — the banner is the
first bytes of the output.  The two DDD conjuncts are exhaustive: every
content either admits the canonical decomposition
`dashes ++ fm ++ dashes ++ b` with `splitFirst` returning `(fm, b)`
(content with a complete block), or satisfies one of the second
conjunct's disjuncts. -/
theorem c1_amended :
    (∀ c : Str, inject_credit_core c = CREDIT_COMMENT_core ++ c)
    ∧ (∀ c : Str, dashes.isPrefixOf c = false ∨ splitFirst dashes (c.drop 3) = none →
        inject_credit_ddd c = CREDIT_COMMENT_ddd ++ c)
    ∧ (∀ fm b : Str, splitFirst dashes (fm ++ dashes ++ b) = some (fm, b) →
        inject_credit_ddd (dashes ++ fm ++ dashes ++ b)
          = dashes ++ fm ++ dashes ++ '\n' :: '\n' :: (CREDIT_COMMENT_ddd ++ lstrip b)) :=
  ⟨fun _ => rfl, inject_ddd_no_block, inject_ddd_fm⟩

/-- Witness for the amended claim C1 at concrete contents, exercising both
banner-first cases (no leading `---`; leading `---` without a closing
`---`) and the complete-frontmatter case. -/
theorem c1_amended_witness :
    inject_credit_core (("body").toList) = CREDIT_COMMENT_core ++ ("body").toList
    ∧ inject_credit_ddd (("plain body").toList) = CREDIT_COMMENT_ddd ++ ("plain body").toList
    ∧ inject_credit_ddd (("---abc").toList) = CREDIT_COMMENT_ddd ++ ("---abc").toList
    ∧ inject_credit_ddd (dashes ++ ("\nname: a\n").toList ++ dashes ++ ("\n\nbody").toList)
        = dashes ++ ("\nname: a\n").toList ++ dashes
            ++ '\n' :: '\n' :: (CREDIT_COMMENT_ddd ++ lstrip (("\n\nbody").toList)) :=
  ⟨c1_amended.1 _, c1_amended.2.1 _ (by decide), c1_amended.2.1 _ (by decide),
   c1_amended.2.2 _ _ (by decide)⟩

/-- Claim C2: in both pipelines, `transform_references` equals the left
fold of the rule substitutions over the content in `REFERENCE_PATTERNS`
list order, each rule acting on the previous rule's output. -/
theorem c2 (c : Str) :
    transform_references_core c
      = REFERENCE_PATTERNS_core.foldl (fun acc rule => rule acc) c
    ∧ transform_references_ddd c
      = REFERENCE_PATTERNS_ddd.foldl (fun acc p => pyReplace p.1 p.2 acc) c :=
  ⟨rfl, rfl⟩

/-- Claim C7: rule order of the DDD `REFERENCE_PATTERNS` is observable —
on `"@ddd:context/phases/plan.md"` swapping the first two rules changes the
result (the `@ddd:` rule's replacement swallows text that the
`@ddd:context/` rule would otherwise rewrite). -/
theorem c7 :
    REFERENCE_PATTERNS_ddd.foldl (fun acc p => pyReplace p.1 p.2 acc)
      (("@ddd:context/phases/plan.md").toList)
    ≠ [dddPat2, dddPat1, dddPat3, dddPat4, dddPat5].foldl
        (fun acc p => pyReplace p.1 p.2 acc)
        (("@ddd:context/phases/plan.md").toList) := by
  decide

/-- Claim C9: on content made of a complete leading frontmatter block
followed by a body, the DDD `inject_credit` emits the block, then exactly
one blank line (`"---\n\n"`), then the banner, then the body with its
leading whitespace stripped — so the body is not preserved byte-for-byte
whenever it begins with whitespace. -/
theorem c9 (fm b : Str)
    (h : splitFirst dashes (fm ++ dashes ++ b) = some (fm, b)) :
    inject_credit_ddd (dashes ++ fm ++ dashes ++ b)
      = dashes ++ fm ++ dashes
          ++ '\n' :: '\n' :: (CREDIT_COMMENT_ddd ++ lstrip b) :=
  inject_ddd_fm fm b h

/-- Witness for claim C9: a body with leading whitespace (here `"\n   "`)
is emitted lstripped. -/
theorem c9_witness :
    inject_credit_ddd (dashes ++ ("\nname: x\n").toList ++ dashes ++ ("\n   body").toList)
      = dashes ++ ("\nname: x\n").toList ++ dashes
          ++ '\n' :: '\n' :: (CREDIT_COMMENT_ddd ++ lstrip (("\n   body").toList)) :=
  c9 _ _ (by decide)

/-- Claim C10, counterexample: `"---\nname: old\n---"` starts with `---`
and has exactly one further `---` delimiter after the opening one — fewer
than two — yet `update_frontmatter_name` rewrites it rather than returning
it unchanged (`split("---", 2)` already yields three parts there). -/
theorem c10_counterexample :
    dashes.isPrefixOf (("---\nname: old\n---").toList) = true
    ∧ countOcc dashes ((("---\nname: old\n---").toList).drop 3) = 1
    ∧ update_frontmatter_name (("---\nname: old\n---").toList) (("x").toList)
        ≠ ("---\nname: old\n---").toList := by
  decide

/-- Claim C10, amended: `update_frontmatter_name` returns the content
unchanged, for any new name, exactly when the content does not start with
`---` or contains no further `---` delimiter after the opening one. -/
theorem c10_amended (c nm : Str)
    (h : dashes.isPrefixOf c = false ∨ splitFirst dashes (c.drop 3) = none) :
    update_frontmatter_name c nm = c := by
  rcases h with h | h
  · rw [update_frontmatter_name, h]
    simp
  · cases hpc : dashes.isPrefixOf c with
    | false =>
      rw [update_frontmatter_name, hpc]
      simp
    | true =>
      obtain ⟨t, ht⟩ := List.isPrefixOf_iff_prefix.mp hpc
      subst ht
      have hdrop : (dashes ++ t).drop 3 = t := by simp [dashes]
      rw [hdrop] at h
      rw [update_frontmatter_name, isPrefixOf_dashes_append]
      simp only [if_true]
      rw [pySplit2, splitFirst_dashes_self]
      simp [h]

/-- Witness for the amended claim C10 at concrete contents of both kinds. -/
theorem c10_amended_witness :
    update_frontmatter_name (("no frontmatter").toList) (("x").toList)
        = ("no frontmatter").toList
    ∧ update_frontmatter_name (("---only an opening").toList) (("x").toList)
        = ("---only an opening").toList :=
  ⟨c10_amended _ _ (by decide), c10_amended _ _ (by decide)⟩

/-- Claim C3: for every assembler of both pipelines and every source
state, a dry run performs no destination write, while reporting exactly
the paths the same invocation in apply mode would write, with identical
reported paths, warnings and returned result. -/
theorem c3 (csrc : CoreSrc) (dsrc : DddSrc) :
    dryRunAgrees (fun d => sync_philosophy csrc d)
    ∧ dryRunAgrees (fun d => sync_module_development csrc d)
    ∧ dryRunAgrees (fun d => convert_agents_to_commands dsrc d)
    ∧ dryRunAgrees (fun d => copy_context_to_skills dsrc d)
    ∧ dryRunAgrees generate_skill_md := by
  refine ⟨?_, ?_, ?_, ?_, ?_⟩
  · cases h : csrc.design_philosophy <;> simp [dryRunAgrees, sync_philosophy, h]
  · rcases h : csrc.contracts with _ | cd
    · simp [dryRunAgrees, sync_module_development, h]
    · rcases h2 : cd.readme with _ | readme
      · simp [dryRunAgrees, sync_module_development, h, h2]
      · simp [dryRunAgrees, sync_module_development, h, h2]
  · rcases h : dsrc.agents with _ | ag
    · simp [dryRunAgrees, convert_agents_to_commands, h]
    · simp [dryRunAgrees, convert_agents_to_commands, h, convertLoop_eq,
        List.map_filterMap, Option.map_map]
      congr 1
  · rcases h : dsrc.context with _ | entries
    · simp [dryRunAgrees, copy_context_to_skills, h]
    · simp [dryRunAgrees, copy_context_to_skills, h, copyLoop_eq]
  · simp [dryRunAgrees, generate_skill_md]

/-- Claim C4: when a mandatory source is missing (the philosophy document
for the single-file artifact; the contracts directory or its README for
the multi-file artifact), the assembler fails without performing or even
reporting any write, and the whole amplifier-core run aborts with a
failure result, the module-development destination never written. -/
theorem c4 (src : CoreSrc) (dry : Bool) :
    (src.design_philosophy = none →
      sync_philosophy src dry = ⟨[], [], [], .fail designMissingMsg⟩
      ∧ main_core src dry = ⟨[], [], [], .fail designMissingMsg⟩)
    ∧ (src.contracts = none →
      sync_module_development src dry = ⟨[], [], [], .fail contractsMissingMsg⟩)
    ∧ (∀ cd, src.contracts = some cd → cd.readme = none →
      sync_module_development src dry = ⟨[], [], [], .fail readmeMissingMsg⟩)
    ∧ ((src.contracts = none ∨ ∃ cd, src.contracts = some cd ∧ cd.readme = none) →
      (main_core src dry).result.isFailB = true
      ∧ ∀ ct, (moduleDevPath, ct) ∉ (main_core src dry).writes) := by
  have hne : philosophyPath ≠ moduleDevPath := by decide
  refine ⟨?_, ?_, ?_, ?_⟩
  · intro h
    constructor
    · simp [sync_philosophy, h]
    · simp [main_core, sync_philosophy, h]
  · intro h
    simp [sync_module_development, h]
  · intro cd h1 h2
    simp [sync_module_development, h1, h2]
  · intro h
    have hmod : sync_module_development src dry = ⟨[], [], [], .fail contractsMissingMsg⟩
        ∨ sync_module_development src dry = ⟨[], [], [], .fail readmeMissingMsg⟩ := by
      rcases h with hc | ⟨cd, hc, hr⟩
      · exact Or.inl (by simp [sync_module_development, hc])
      · exact Or.inr (by simp [sync_module_development, hc, hr])
    cases hd : src.design_philosophy with
    | none =>
      constructor
      · simp [main_core, sync_philosophy, hd, SyncResult.isFailB]
      · intro ct
        simp [main_core, sync_philosophy, hd]
    | some dcontent =>
      rcases hmod with hmod | hmod <;>
        cases dry <;>
          constructor <;>
            simp [main_core, sync_philosophy, hd, hmod, SyncResult.isFailB] <;>
              exact fun heq => hne heq.symm

/-- Witness for claim C4 at concrete clones missing each mandatory
source. -/
theorem c4_witness :
    sync_philosophy ⟨none, none, none⟩ false = ⟨[], [], [], .fail designMissingMsg⟩
    ∧ main_core ⟨none, none, none⟩ false = ⟨[], [], [], .fail designMissingMsg⟩
    ∧ sync_module_development ⟨none, none, none⟩ false
        = ⟨[], [], [], .fail contractsMissingMsg⟩
    ∧ sync_module_development ⟨none, some ⟨none, fun _ => none⟩, none⟩ false
        = ⟨[], [], [], .fail readmeMissingMsg⟩
    ∧ (main_core ⟨none, none, none⟩ false).result.isFailB = true :=
  ⟨((c4 ⟨none, none, none⟩ false).1 rfl).1,
   ((c4 ⟨none, none, none⟩ false).1 rfl).2,
   (c4 ⟨none, none, none⟩ false).2.1 rfl,
   (c4 ⟨none, some ⟨none, fun _ => none⟩, none⟩ false).2.2.1 ⟨none, fun _ => none⟩ rfl rfl,
   ((c4 ⟨none, none, none⟩ false).2.2.2 (Or.inl rfl)).1⟩

/-- Claim C5: with the contracts directory and its README present,
`sync_module_development` completes with success, logs one warning per
absent secondary file (contract files and `MODULE_SOURCE_PROTOCOL.md`),
and writes the single destination whose body merges the README and
exactly the present fragments, in `CONTRACT_FILES` order, each fragment
carrying the `"\n---\n\n"` separator marker. -/
theorem c5 (src : CoreSrc) (cd : ContractsDir) (readme : Str)
    (h1 : src.contracts = some cd) (h2 : cd.readme = some readme) :
    (sync_module_development src false).result = .ok moduleDevPath
    ∧ (sync_module_development src false).warnings
        = (CONTRACT_FILES.filter fun n => (cd.files n).isNone).map contractWarn
            ++ mspWarnPart src.module_source_protocol
    ∧ (sync_module_development src false).writes
        = [(moduleDevPath,
            MODULE_DEV_FRONTMATTER ++ inject_credit_core (List.intercalate nlStr
              (transform_references_core readme
                :: ((CONTRACT_FILES.filterMap fun n =>
                      (cd.files n).map fun ct => sepSec ++ transform_references_core ct)
                    ++ mspSecPart src.module_source_protocol))))] := by
  cases hm : src.module_source_protocol with
  | none =>
    simp [sync_module_development, h1, h2, hm, contractFold_eq, mspWarnPart, mspSecPart]
  | some m =>
    simp [sync_module_development, h1, h2, hm, contractFold_eq, mspWarnPart, mspSecPart]

/-- Witness for claim C5 at a clone with only `TOOL_CONTRACT.md` present
and `MODULE_SOURCE_PROTOCOL.md` absent. -/
theorem c5_witness :
    (sync_module_development witnessCoreSrc false).result = .ok moduleDevPath
    ∧ (sync_module_development witnessCoreSrc false).warnings
        = (CONTRACT_FILES.filter fun n => (witnessContractsDir.files n).isNone).map contractWarn
            ++ mspWarnPart witnessCoreSrc.module_source_protocol
    ∧ (sync_module_development witnessCoreSrc false).writes
        = [(moduleDevPath,
            MODULE_DEV_FRONTMATTER ++ inject_credit_core (List.intercalate nlStr
              (transform_references_core (("# Overview").toList)
                :: ((CONTRACT_FILES.filterMap fun n =>
                      (witnessContractsDir.files n).map fun ct =>
                        sepSec ++ transform_references_core ct)
                    ++ mspSecPart witnessCoreSrc.module_source_protocol))))] :=
  c5 witnessCoreSrc witnessContractsDir (("# Overview").toList) rfl rfl

/-- Claim C6: for every `AGENT_TO_COMMAND` entry, in apply mode: a present
source yields exactly one write of the mapped destination, whose content
is the transformed, credit-injected source with the frontmatter name set
to the destination stem; an absent source yields no write to that
destination and exactly one warning; and the run never fails because of
an absent entry. -/
theorem c6 (src : DddSrc) (ag : Str → Option Str) (hag : src.agents = some ag)
    (a cmd : Str) (hm : (a, cmd) ∈ AGENT_TO_COMMAND) :
    (convert_agents_to_commands src false).result.isFailB = false
    ∧ (∀ ct, ag a = some ct →
        ((convert_agents_to_commands src false).writes).count
            (cmdPathOf cmd, expectedCommandContent ct cmd) = 1
        ∧ (((convert_agents_to_commands src false).writes).map Prod.fst).count
            (cmdPathOf cmd) = 1)
    ∧ (ag a = none →
        (((convert_agents_to_commands src false).writes).map Prod.fst).count
            (cmdPathOf cmd) = 0
        ∧ ((convert_agents_to_commands src false).warnings).count (convertWarn a) = 1) := by
  have hpathnd : (AGENT_TO_COMMAND.map fun e => cmdPathOf e.2).Nodup := by decide
  have hwrites : (convert_agents_to_commands src false).writes
      = AGENT_TO_COMMAND.filterMap fun e =>
          (ag e.1).map fun ct => (cmdPathOf e.2, expectedCommandContent ct e.2) := by
    simp [convert_agents_to_commands, hag, convertLoop_eq]
  have hwarnsEq : (convert_agents_to_commands src false).warnings
      = AGENT_TO_COMMAND.filterMap fun e =>
          match ag e.1 with
          | none => some (convertWarn e.1)
          | some _ => none := by
    simp [convert_agents_to_commands, hag, convertLoop_eq]
  have hmapfst : ((convert_agents_to_commands src false).writes).map Prod.fst
      = AGENT_TO_COMMAND.filterMap fun e => (ag e.1).map fun _ => cmdPathOf e.2 := by
    rw [hwrites, List.map_filterMap]
    apply List.filterMap_congr
    intro e _
    cases he : ag e.1 <;> simp
  have hpaths := count_filterMap_unique
    (fun e => (ag e.1).map fun _ => cmdPathOf e.2)
    (fun e => cmdPathOf e.2)
    (by
      intro x y hxy
      cases hx : ag x.1 <;> simp [hx] at hxy
      simp_all)
    AGENT_TO_COMMAND (a, cmd) hm hpathnd
  refine ⟨by simp [convert_agents_to_commands, hag, SyncResult.isFailB], ?_, ?_⟩
  · intro ct hct
    constructor
    · have hGnd : (AGENT_TO_COMMAND.map fun e =>
          (cmdPathOf e.2, expectedCommandContent ((ag e.1).getD []) e.2)).Nodup := by
        apply List.Nodup.of_map Prod.fst
        have hfst : ((AGENT_TO_COMMAND.map fun e =>
            (cmdPathOf e.2, expectedCommandContent ((ag e.1).getD []) e.2)).map Prod.fst)
            = AGENT_TO_COMMAND.map fun e => cmdPathOf e.2 := by
          simp [List.map_map, Function.comp]
        rw [hfst]
        exact hpathnd
      have hpairs := count_filterMap_unique
        (fun e => (ag e.1).map fun ct2 => (cmdPathOf e.2, expectedCommandContent ct2 e.2))
        (fun e => (cmdPathOf e.2, expectedCommandContent ((ag e.1).getD []) e.2))
        (by
          intro x y hxy
          cases hx : ag x.1 <;> simp [hx] at hxy
          simp_all)
        AGENT_TO_COMMAND (a, cmd) hm hGnd
      rw [hwrites]
      simpa [hct] using hpairs
    · rw [hmapfst]
      simpa [hct] using hpaths
  · intro hnone
    constructor
    · rw [hmapfst]
      simpa [hnone] using hpaths
    · have hwarnnd : (AGENT_TO_COMMAND.map fun e => convertWarn e.1).Nodup := by decide
      have hwarns := count_filterMap_unique
        (fun e : Str × Str =>
          match ag e.1 with
          | none => some (convertWarn e.1)
          | some _ => none)
        (fun e => convertWarn e.1)
        (by
          intro x y hxy
          cases hx : ag x.1 <;> simp [hx] at hxy
          simp_all)
        AGENT_TO_COMMAND (a, cmd) hm hwarnnd
      rw [hwarnsEq]
      simpa [hnone] using hwarns

/-- Witness for claim C6: with only `planning-architect.md` upstream,
apply mode writes exactly `commands/ddd-1-plan.md`, does not write
`commands/ddd-3-code-plan.md`, and logs one warning for the absent
`code-planner.md`. -/
theorem c6_witness :
    ((convert_agents_to_commands witnessDddSrc false).writes).count
        (cmdPathOf (("ddd-1-plan.md").toList),
         expectedCommandContent (("---\nname: planning-architect\n---\nAgent body").toList)
           (("ddd-1-plan.md").toList)) = 1
    ∧ (((convert_agents_to_commands witnessDddSrc false).writes).map Prod.fst).count
        (cmdPathOf (("ddd-3-code-plan.md").toList)) = 0
    ∧ ((convert_agents_to_commands witnessDddSrc false).warnings).count
        (convertWarn (("code-planner.md").toList)) = 1 :=
  ⟨((c6 witnessDddSrc witnessAgents rfl (("planning-architect.md").toList)
        (("ddd-1-plan.md").toList) (by decide)).2.1 _ (by decide)).1,
   ((c6 witnessDddSrc witnessAgents rfl (("code-planner.md").toList)
        (("ddd-3-code-plan.md").toList) (by decide)).2.2 (by decide)).1,
   ((c6 witnessDddSrc witnessAgents rfl (("code-planner.md").toList)
        (("ddd-3-code-plan.md").toList) (by decide)).2.2 (by decide)).2⟩

/-- Claim C8: `copy_context_to_skills` writes, for each markdown file
found under the context directory, exactly the transformed and
credit-injected content at the identical relative path under the
references root — and nothing else, with no frontmatter template
prepended and no warnings. -/
theorem c8 (src : DddSrc) (entries : List (Str × Str)) (h : src.context = some entries) :
    (copy_context_to_skills src false).writes
      = entries.map (fun e => (refPathOf e.1, inject_credit_ddd (transform_references_ddd e.2)))
    ∧ (copy_context_to_skills src false).result = .ok (entries.map fun e => refPathOf e.1)
    ∧ (copy_context_to_skills src false).warnings = []
    ∧ ∀ rel ct, (rel, ct) ∈ entries →
        (refPathOf rel, inject_credit_ddd (transform_references_ddd ct))
          ∈ (copy_context_to_skills src false).writes := by
  refine ⟨?_, ?_, ?_, ?_⟩
  · simp [copy_context_to_skills, h, copyLoop_eq]
  · simp [copy_context_to_skills, h, copyLoop_eq]
  · simp [copy_context_to_skills, h, copyLoop_eq]
  · intro rel ct hmem
    simp only [copy_context_to_skills, h, copyLoop_eq]
    exact List.mem_map_of_mem _ hmem

/-- Witness for claim C8 at a context directory with one file. -/
theorem c8_witness :
    (copy_context_to_skills witnessDddSrc false).writes
      = [(("phases/plan.md").toList, ("plan @ddd:context/x.md").toList)].map
          (fun e => (refPathOf e.1, inject_credit_ddd (transform_references_ddd e.2)))
    ∧ (copy_context_to_skills witnessDddSrc false).result
        = .ok ([(("phases/plan.md").toList, ("plan @ddd:context/x.md").toList)].map
            fun e => refPathOf e.1) :=
  ⟨(c8 witnessDddSrc _ rfl).1, (c8 witnessDddSrc _ rfl).2.1⟩
